import Mathlib

/-!
# Readiness server (`src/ready_server.c`)

A shallow embedding of the readiness HTTP server: the request classifier and
response synthesis of `handle_client`, the send loop `write_all`, the start and
stop operations on the process-wide state, and the accept loop `ready_main`.

Conventions of the embedding.
* A byte is a `Nat`; memory is a `List Nat`; a read past the modelled memory
  yields NUL. A C string literal is its bytes followed by NUL.
* Calls into libc and the kernel (`recv`, `send`, `socket`, `getenv`,
  `inet_pton`, `bind`, `listen`, `pthread_create`, `accept`) are inputs: their
  results are parameters of the embedded functions, and the calls the program
  issues are recorded as a list of effects.
* Uninitialised stack buffers (`req`, `resp`) are parameters as well, so that
  every statement holds for whatever they contained.
-/

namespace ReadyServer

/-! ## Bytes and the libc string functions used by `handle_client` -/

/-- Bytes of an ASCII string literal, without the terminating NUL. -/
def bytes (s : String) : List Nat := s.toList.map Char.toNat

/-- A C string literal as it lies in memory: its bytes followed by NUL. -/
def cstr (s : String) : List Nat := bytes s ++ [0]

/-- The libc `strlen`: number of bytes before the first NUL. -/
def strlen : List Nat → Nat
  | [] => 0
  | c :: cs => if c = 0 then 0 else strlen cs + 1

/-- The libc `strncmp`: compares at most `n` bytes, stops at the first
difference or at a NUL, and returns the difference of the two bytes there. -/
def strncmp : List Nat → List Nat → Nat → Int
  | _, _, 0 => 0
  | s1, s2, n + 1 =>
    let c1 := s1.headD 0
    let c2 := s2.headD 0
    if c1 ≠ c2 then (c1 : Int) - (c2 : Int)
    else if c1 = 0 then 0
    else strncmp s1.tail s2.tail n

/-- An argument of `snprintf`: an `int` for `%d`, a C string for `%s`. -/
inductive FmtArg where
  | int (v : Int)
  | str (s : List Nat)

/-- Decimal rendering of an `int`, as `%d` prints it. -/
def fmtDecimal (v : Int) : List Nat :=
  if v < 0 then 45 :: (Nat.toDigits 10 v.natAbs).map Char.toNat
  else (Nat.toDigits 10 v.natAbs).map Char.toNat

/-- Expansion of a format string (without its NUL) that uses only the
conversions `%d` (bytes 37, 100) and `%s` (bytes 37, 115). -/
def expandFormat : List Nat → List FmtArg → List Nat
  | [], _ => []
  | 37 :: 100 :: rest, FmtArg.int v :: args => fmtDecimal v ++ expandFormat rest args
  | 37 :: 115 :: rest, FmtArg.str s :: args => s.takeWhile (fun c => c ≠ 0) ++ expandFormat rest args
  | c :: rest, args => c :: expandFormat rest args

/-- The libc `snprintf(buf, size, fmt, ...)` on a buffer whose previous content
is `buf`: at most `size - 1` bytes of the expansion are stored, followed by NUL;
the return value is the length of the whole expansion. -/
def snprintf (buf : List Nat) (size : Nat) (fmt : List Nat) (args : List FmtArg) :
    List Nat × Int :=
  let out := expandFormat fmt args
  if size = 0 then (buf, (out.length : Int))
  else
    let stored := out.take (size - 1) ++ [0]
    (stored ++ buf.drop stored.length, (out.length : Int))

/-! ## `handle_client` -/

/-- The text of the literal `ok_body`: an opening brace, `"status":"UP"`, and a
closing brace. -/
def okBodyText : String := "\x7b\"status\":\"UP\"\x7d"

/-- The literal `ok_body`. -/
def ok_body : List Nat := cstr okBodyText

/-- The literal `notfound_body`. -/
def notfound_body : List Nat := cstr "Not Found"

/-- The format string of the 200 branch (adjacent literals concatenated). -/
def ok_format : List Nat :=
  bytes ("HTTP/1.1 200 OK\r\n" ++ "Content-Type: application/json\r\n" ++
    "Content-Length: %d\r\n" ++ "Connection: close\r\n" ++ "\r\n" ++ "%s")

/-- The format string of the 404 branch (adjacent literals concatenated). -/
def notfound_format : List Nat :=
  bytes ("HTTP/1.1 404 Not Found\r\n" ++ "Content-Type: text/plain\r\n" ++
    "Content-Length: %d\r\n" ++ "Connection: close\r\n" ++ "\r\n" ++ "%s")

/-- The buffer `req` after `recv` stored `data` at its start and the handler
stored NUL at index `n`; `req0` is the previous content of the 1024 bytes. -/
def req_after_recv (req0 : List Nat) (n : Int) (data : List Nat) : List Nat :=
  (data ++ req0.drop data.length).set n.toNat 0

/-- The flag `is_ready` computed from the NUL-terminated buffer `req`. -/
def is_ready (req : List Nat) : Bool :=
  strncmp req (cstr "GET /ready ") 11 = 0 ∨ strncmp req (cstr "GET /ready\r") 10 = 0 ∨
    strncmp req (cstr "GET /ready\n") 10 = 0

/-- The call `write_all(cfd, resp, rlen)` that `handle_client` makes, as the
pair of the memory `resp` and the length `rlen`; `none` when no call is made.
`n` and `data` are the result of `recv` and the bytes it stored, `req0` and
`resp0` the previous contents of the two stack buffers. -/
def handle_client (req0 resp0 : List Nat) (n : Int) (data : List Nat) :
    Option (List Nat × Nat) :=
  if n ≤ 0 then none
  else
    let req := req_after_recv req0 n data
    if is_ready req then
      let blen : Int := strlen ok_body
      let r := snprintf resp0 256 ok_format [FmtArg.int blen, FmtArg.str ok_body]
      if r.2 > 0 then some (r.1, r.2.toNat) else none
    else
      let blen : Int := strlen notfound_body
      let r := snprintf resp0 256 notfound_format [FmtArg.int blen, FmtArg.str notfound_body]
      if r.2 > 0 then some (r.1, r.2.toNat) else none

/-- The bytes that `write_all` is asked to send: the first `rlen` bytes of `resp`. -/
def handed (call : Option (List Nat × Nat)) : Option (List Nat) :=
  call.map (fun c => c.1.take c.2)

/-- The complete 200 response of the wire protocol, with `l` in the length field. -/
def response200 (l : Nat) : List Nat :=
  bytes ("HTTP/1.1 200 OK\r\nContent-Type: application/json\r\nContent-Length: " ++ toString l ++
    "\r\nConnection: close\r\n\r\n") ++ bytes okBodyText

/-- The complete 404 response of the wire protocol, with `l` in the length field. -/
def response404 (l : Nat) : List Nat :=
  bytes ("HTTP/1.1 404 Not Found\r\nContent-Type: text/plain\r\nContent-Length: " ++ toString l ++
    "\r\nConnection: close\r\n\r\n") ++ bytes "Not Found"

/-! ## `write_all` -/

/-- One call of `send(fd, buf, len, 0)`: the `len` bytes at `buf` that were
offered, and the value the call returned. -/
structure SendCall where
  offered : List Nat
  ret : Int
deriving DecidableEq, Repr

/-- The loop of `write_all` over the memory `mem`, with `buf` an offset into it
and `len` a `size_t` (64 bits). `send k offered` is the result of the `k`-th call
of `send`. The list of calls made is returned; `fuel` bounds the number of
evaluations of the loop condition, and `none` means it was exhausted. -/
def write_all (send : Nat → List Nat → Int) (mem : List Nat) :
    Nat → Nat → Nat → Nat → Option (List SendCall)
  | 0, _, _, _ => none
  | fuel + 1, k, buf, len =>
    if len = 0 then some []
    else
      let offered := (mem.drop buf).take len
      let n := send k offered
      if n ≤ 0 then some [⟨offered, n⟩]
      else
        (write_all send mem fuel (k + 1) (buf + n.toNat) ((len + 2 ^ 64 - n.toNat) % 2 ^ 64)).map
          (fun rest => ⟨offered, n⟩ :: rest)

/-- Number of bytes the calls accepted in total. -/
def sent (calls : List SendCall) : Nat :=
  (calls.map (fun c => c.ret.toNat)).sum

/-- The bytes the calls accepted, concatenated in order. -/
def accepted (calls : List SendCall) : List Nat :=
  (calls.map (fun c => c.offered.take c.ret.toNat)).flatten

/-! ## Process-wide state, `ready_server_start`, `ready_server_stop`, `ready_main` -/

/-- The struct `ready_server` of the header. -/
structure ready_server where
  fd : Int
  port : Nat
deriving DecidableEq, Repr

/-- The fields of `struct sockaddr_in` that the program sets. `sin_port` and
`sin_addr` hold the port and the IPv4 address whose network-order encodings
`htons`, `htonl` and `inet_pton` store. -/
structure sockaddr_in where
  sin_family : Nat
  sin_port : Nat
  sin_addr : Nat
deriving DecidableEq, Repr

/-- The constant `AF_INET`. -/
def AF_INET : Nat := 2

/-- The constant `INADDR_ANY`, the wildcard address 0.0.0.0. -/
def INADDR_ANY : Nat := 0

/-- The address 127.0.0.1. -/
def INADDR_LOOPBACK : Nat := 127 * 2 ^ 24 + 1

/-- The constant `READY_BACKLOG`. -/
def READY_BACKLOG : Nat := 16

/-- The constant `EINVAL`. -/
def EINVAL : Int := 22

/-- The constant `EINTR`. -/
def EINTR : Int := 4

/-- State of the background thread that runs `ready_main`. -/
inductive Thread where
  /-- no thread exists: none was created, or it was joined -/
  | absent
  /-- `pthread_create` succeeded and `ready_main` is about to start -/
  | created
  /-- `ready_main` is at the head of its `while` loop -/
  | looping
  /-- a connection was accepted and is being handled -/
  | handling (cfd : Int)
  /-- `ready_main` has returned and the thread was not joined yet -/
  | returned
deriving DecidableEq, Repr

/-- The process-wide state: the statics `ready_running` and `ready_srv` (NULL or
the address of a handle), the handles by address, and the background thread. -/
structure World where
  ready_running : Int
  ready_srv : Option Nat
  mem : Nat → ready_server
  thread : Thread

/-- A call the program issues to libc or the kernel. -/
inductive Effect where
  | socket
  | setsockopt (fd : Int)
  | getenv
  | inet_pton (s : List Nat)
  | set_errno (e : Int)
  | bind (fd : Int) (addr : sockaddr_in)
  | listen (fd : Int) (backlog : Nat)
  | pthread_create
  | pthread_join
  | close (fd : Int)
  | handle_client (cfd : Int)
deriving DecidableEq, Repr

/-- Results of the calls that `ready_server_start` makes. `getenv` is NULL or
the bytes of the value of `WRK2_READY_BIND`; `inet_pton s` is the return value
of `inet_pton(AF_INET, s, ..)` and the address it stored when that value is 1. -/
structure StartEnv where
  socket : Int
  getenv : Option (List Nat)
  inet_pton : List Nat → Int × Nat
  bind : Int
  listen : Int
  pthread_create : Int

/-- What a call of `ready_server_start` leaves: the state, the calls issued in
order, and the return value. -/
structure StartResult where
  world : World
  effects : List Effect
  ret : Int

/-- Lines 127 to 136 of `ready_server_start`: the address to bind, and the call
of `inet_pton` if one was made; `none` is the path that returns early. -/
def select_bind_addr (env : StartEnv) (addr : sockaddr_in) :
    Option sockaddr_in × List Effect :=
  match env.getenv with
  | some bind_ip =>
    if bind_ip.headD 0 ≠ 0 then
      if (env.inet_pton bind_ip).1 ≠ 1 then (none, [Effect.inet_pton bind_ip])
      else (some { addr with sin_addr := (env.inet_pton bind_ip).2 }, [Effect.inet_pton bind_ip])
    else (some { addr with sin_addr := INADDR_ANY }, [])
  | none => (some { addr with sin_addr := INADDR_ANY }, [])

/-- The function `ready_server_start(srv, port)`; `srv` is NULL or an address. -/
def ready_server_start (env : StartEnv) (w : World) (srv : Option Nat) (port : Nat) :
    StartResult :=
  match srv with
  | none => ⟨w, [], -1⟩
  | some p =>
    let w1 : World := { w with mem := Function.update w.mem p { fd := -1, port := port } }
    let fd := env.socket
    if fd < 0 then ⟨w1, [Effect.socket], -1⟩
    else
      let e1 := [Effect.socket, Effect.setsockopt fd, Effect.getenv]
      let addr0 : sockaddr_in := { sin_family := AF_INET, sin_port := port, sin_addr := 0 }
      match select_bind_addr env addr0 with
      | (none, e2) => ⟨w1, e1 ++ e2 ++ [Effect.close fd, Effect.set_errno EINVAL], -1⟩
      | (some addr, e2) =>
        if env.bind < 0 then
          ⟨w1, e1 ++ e2 ++ [Effect.bind fd addr, Effect.close fd], -1⟩
        else if env.listen < 0 then
          ⟨w1, e1 ++ e2 ++ [Effect.bind fd addr, Effect.listen fd READY_BACKLOG, Effect.close fd], -1⟩
        else
          let e3 := e1 ++ e2 ++
            [Effect.bind fd addr, Effect.listen fd READY_BACKLOG, Effect.pthread_create]
          let w2 : World := { w1 with mem := Function.update w1.mem p { w1.mem p with fd := fd } }
          let w3 : World := { w2 with ready_srv := some p, ready_running := 1 }
          if env.pthread_create ≠ 0 then
            let w4 : World := { w3 with ready_running := 0, ready_srv := none }
            ⟨{ w4 with mem := Function.update w4.mem p { w4.mem p with fd := -1 } },
              e3 ++ [Effect.close fd], -1⟩
          else ⟨{ w3 with thread := Thread.created }, e3, 0⟩

/-- The function `ready_server_stop(srv)`; the argument is unused. The call of
`pthread_join` returns once `ready_main` has returned, so no thread is left. -/
def ready_server_stop (w : World) : World × List Effect :=
  if w.ready_running = 0 then (w, [])
  else
    let w1 : World := { w with ready_running := 0 }
    let r : World × List Effect :=
      match w1.ready_srv with
      | some p =>
        if (w1.mem p).fd ≥ 0 then
          ({ w1 with mem := Function.update w1.mem p { w1.mem p with fd := -1 } },
            [Effect.close (w1.mem p).fd])
        else (w1, [])
      | none => (w1, [])
    ({ r.1 with thread := Thread.absent, ready_srv := none }, r.2 ++ [Effect.pthread_join])

/-- Result of one call of `accept`: the returned descriptor and `errno`. -/
structure AcceptResult where
  cfd : Int
  errno : Int
deriving DecidableEq, Repr

/-- The condition of the `while` loop of `ready_main`. -/
def loop_condition (w : World) : Bool :=
  match w.ready_srv with
  | some p => decide (w.ready_running ≠ 0) && decide ((w.mem p).fd ≥ 0)
  | none => false

/-- One step of the thread running `ready_main`; `a` is the result of `accept`
if the step calls it. -/
def ready_main_step (w : World) (a : AcceptResult) : World × List Effect :=
  match w.thread with
  | Thread.absent => (w, [])
  | Thread.returned => (w, [])
  | Thread.created => ({ w with thread := Thread.looping }, [])
  | Thread.handling cfd =>
    ({ w with thread := Thread.looping }, [Effect.handle_client cfd, Effect.close cfd])
  | Thread.looping =>
    if loop_condition w then
      if a.cfd < 0 then
        if a.errno = EINTR then (w, [])
        else ({ w with thread := Thread.returned }, [])
      else ({ w with thread := Thread.handling a.cfd }, [])
    else ({ w with thread := Thread.returned }, [])

/-- The state of a process in which the server was never started. -/
def World.initial (mem : Nat → ready_server) : World :=
  { ready_running := 0, ready_srv := none, mem := mem, thread := Thread.absent }

/-! ### Start and stop statement by statement, interleaved with the thread

The thread running `ready_main` executes concurrently with the caller of
`ready_server_start` and `ready_server_stop`. Both functions are cut where the
thread can observe or be affected by the state they leave: start between the
store `ready_running = 1` and `pthread_create`, stop after the store
`ready_running = 0`, after the close of the listener, and at the return of
`pthread_join`. -/

/-- A call of `ready_server_start` that has reached `pthread_create`: the
state it left, the calls it issued, the handle and the descriptor. -/
structure StartPending where
  world : World
  effects : List Effect
  srv : Nat
  fd : Int

/-- Lines 108 to 151 of `ready_server_start`: up to and including the store
`ready_running = 1`. The left summand is an early return. -/
def start_prepare (env : StartEnv) (w : World) (srv : Option Nat) (port : Nat) :
    StartResult ⊕ StartPending :=
  match srv with
  | none => Sum.inl ⟨w, [], -1⟩
  | some p =>
    let w1 : World := { w with mem := Function.update w.mem p { fd := -1, port := port } }
    let fd := env.socket
    if fd < 0 then Sum.inl ⟨w1, [Effect.socket], -1⟩
    else
      let e1 := [Effect.socket, Effect.setsockopt fd, Effect.getenv]
      let addr0 : sockaddr_in := { sin_family := AF_INET, sin_port := port, sin_addr := 0 }
      match select_bind_addr env addr0 with
      | (none, e2) => Sum.inl ⟨w1, e1 ++ e2 ++ [Effect.close fd, Effect.set_errno EINVAL], -1⟩
      | (some addr, e2) =>
        if env.bind < 0 then
          Sum.inl ⟨w1, e1 ++ e2 ++ [Effect.bind fd addr, Effect.close fd], -1⟩
        else if env.listen < 0 then
          Sum.inl ⟨w1,
            e1 ++ e2 ++ [Effect.bind fd addr, Effect.listen fd READY_BACKLOG, Effect.close fd], -1⟩
        else
          let w2 : World := { w1 with mem := Function.update w1.mem p { w1.mem p with fd := fd } }
          let w3 : World := { w2 with ready_srv := some p, ready_running := 1 }
          Sum.inr ⟨w3, e1 ++ e2 ++ [Effect.bind fd addr, Effect.listen fd READY_BACKLOG], p, fd⟩

/-- Lines 152 to 160 of `ready_server_start`: the call of `pthread_create`,
which returns `rc`, and what follows it. -/
def start_spawn (rc : Int) (q : StartPending) : StartResult :=
  if rc ≠ 0 then
    let w4 : World := { q.world with ready_running := 0, ready_srv := none }
    ⟨{ w4 with mem := Function.update w4.mem q.srv { w4.mem q.srv with fd := -1 } },
      q.effects ++ [Effect.pthread_create, Effect.close q.fd], -1⟩
  else ⟨{ q.world with thread := Thread.created }, q.effects ++ [Effect.pthread_create], 0⟩

/-- Line 167 of `ready_server_stop`: the store `ready_running = 0`. -/
def stop_clear (w : World) : World :=
  { w with ready_running := 0 }

/-- Lines 169 to 173 of `ready_server_stop`: the close of the listener. -/
def stop_close (w : World) : World × List Effect :=
  match w.ready_srv with
  | some p =>
    if (w.mem p).fd ≥ 0 then
      ({ w with mem := Function.update w.mem p { w.mem p with fd := -1 } },
        [Effect.close (w.mem p).fd])
    else (w, [])
  | none => (w, [])

/-- Lines 175 and 176 of `ready_server_stop`: `pthread_join` has returned, so
the thread is gone, and `ready_srv` is reset. -/
def stop_join (w : World) : World × List Effect :=
  ({ w with thread := Thread.absent, ready_srv := none }, [Effect.pthread_join])

/-- Where the caller of start and stop is. -/
inductive Caller where
  /-- outside start and stop -/
  | idle
  /-- in start, having stored `ready_running = 1`, about to call `pthread_create` -/
  | spawning (srv : Nat) (fd : Int)
  /-- in stop, having stored `ready_running = 0`, before the close of the listener -/
  | stop_cleared
  /-- in stop, after the close of the listener, waiting in `pthread_join` -/
  | stop_joining
deriving DecidableEq, Repr

/-- The caller is inside `ready_server_start`. -/
def Caller.inStart : Caller → Bool
  | Caller.spawning _ _ => true
  | _ => false

/-- The caller is inside `ready_server_stop`, past the store `ready_running = 0`. -/
def Caller.inStop : Caller → Bool
  | Caller.stop_cleared => true
  | Caller.stop_joining => true
  | _ => false

/-- The process: the shared state and where the caller is. -/
structure Sys where
  world : World
  caller : Caller

/-- What happens next in the process. -/
inductive Event where
  /-- the caller calls `ready_server_start` and runs it up to `pthread_create`, or to an early return -/
  | start (env : StartEnv) (srv : Option Nat) (port : Nat)
  /-- `pthread_create` returns `rc` and start runs to its return -/
  | spawn (rc : Int)
  /-- the caller calls `ready_server_stop` and runs lines 166 and 167 -/
  | stop
  /-- stop runs lines 169 to 173 -/
  | close
  /-- `pthread_join` returns and stop runs to its return -/
  | join
  /-- the thread makes one step; `a` is the result of `accept` if it is called -/
  | loop (a : AcceptResult)

/-- One transition of the process, `none` when the event cannot happen in the
state. Start is called only while no instance is active, the running flag being
clear: a second start on an active instance is unsupported. `pthread_join`
returns only after `ready_main` has returned. -/
def Sys.next (s : Sys) : Event → Option Sys
  | Event.start env srv port =>
    match s.caller with
    | Caller.idle =>
      if s.world.ready_running = 0 then
        match start_prepare env s.world srv port with
        | Sum.inl r => some ⟨r.world, Caller.idle⟩
        | Sum.inr q => some ⟨q.world, Caller.spawning q.srv q.fd⟩
      else none
    | _ => none
  | Event.spawn rc =>
    match s.caller with
    | Caller.spawning p fd => some ⟨(start_spawn rc ⟨s.world, [], p, fd⟩).world, Caller.idle⟩
    | _ => none
  | Event.stop =>
    match s.caller with
    | Caller.idle =>
      if s.world.ready_running = 0 then some s
      else some ⟨stop_clear s.world, Caller.stop_cleared⟩
    | _ => none
  | Event.close =>
    match s.caller with
    | Caller.stop_cleared => some ⟨(stop_close s.world).1, Caller.stop_joining⟩
    | _ => none
  | Event.join =>
    match s.caller with
    | Caller.stop_joining =>
      if s.world.thread = Thread.returned then some ⟨(stop_join s.world).1, Caller.idle⟩
      else none
    | _ => none
  | Event.loop a => some ⟨(ready_main_step s.world a).1, s.caller⟩

/-- The process after a sequence of events, `none` if one cannot happen. -/
def Sys.run (s : Sys) : List Event → Option Sys
  | [] => some s
  | e :: es =>
    match s.next e with
    | some t => t.run es
    | none => none

/-- The states the process reaches from one in which the server was never
started. -/
inductive Reachable : Sys → Prop where
  | init (mem : Nat → ready_server) : Reachable ⟨World.initial mem, Caller.idle⟩
  | next {s t : Sys} (e : Event) : Reachable s → s.next e = some t → Reachable t

/-- The accept loop is actively executing or about to start. -/
def Thread.active : Thread → Bool
  | Thread.created => true
  | Thread.looping => true
  | Thread.handling _ => true
  | Thread.absent => false
  | Thread.returned => false

/-- No instance is active: the flag is clear, no handle is registered and no
thread exists. -/
def World.idle (w : World) : Prop :=
  w.ready_running = 0 ∧ w.ready_srv = none ∧ w.thread = Thread.absent

/-- Every call the start operation makes succeeds. -/
def StartEnv.allSucceed (env : StartEnv) : Prop :=
  0 ≤ env.socket ∧
  (match env.getenv with
    | some s => s.headD 0 = 0 ∨ (env.inet_pton s).1 = 1
    | none => True) ∧
  0 ≤ env.bind ∧ 0 ≤ env.listen ∧ env.pthread_create = 0

/-- The calls of `bind` among the effects, with their arguments. -/
def bindCalls : List Effect → List (Int × sockaddr_in)
  | [] => []
  | Effect.bind fd addr :: es => (fd, addr) :: bindCalls es
  | _ :: es => bindCalls es

/-- The descriptors closed, in order. -/
def closeCalls : List Effect → List Int
  | [] => []
  | Effect.close fd :: es => fd :: closeCalls es
  | _ :: es => closeCalls es

/-- The number of calls of `pthread_join` among the effects. -/
def joinCalls (es : List Effect) : Nat :=
  es.count Effect.pthread_join

/-- An environment in which every call of start succeeds on descriptor 3 and
`WRK2_READY_BIND` is not set. -/
def plainEnv : StartEnv :=
  { socket := 3, getenv := none, inet_pton := fun _ => (0, 0), bind := 0, listen := 0,
    pthread_create := 0 }

/-- A fresh process whose handle memory is zeroed. -/
def freshWorld : World := World.initial (fun _ => { fd := 0, port := 0 })

/-- The state after a successful start on port 8080, the thread entering its
loop, and `accept` failing with `errno = 24` (EMFILE). -/
def acceptFailedWorld : World :=
  (ready_main_step
    (ready_main_step (ready_server_start plainEnv freshWorld (some 0) 8080).world ⟨-1, 0⟩).1
    ⟨-1, 24⟩).1

/-- The state after a successful start on port 8080, the thread entering its
loop, and the caller entering stop and storing `ready_running = 0`. -/
def stopClearedWorld : World :=
  stop_clear
    (ready_main_step (ready_server_start plainEnv freshWorld (some 0) 8080).world ⟨-1, 0⟩).1

/-- How the flag and the thread are related at each place of the caller. -/
def FlagTracksThread (s : Sys) : Prop :=
  match s.caller with
  | Caller.idle =>
    (s.world.ready_running = 0 ∧ s.world.thread = Thread.absent) ∨
      (s.world.ready_running = 1 ∧ s.world.thread ≠ Thread.absent)
  | Caller.spawning _ _ => s.world.ready_running = 1 ∧ s.world.thread = Thread.absent
  | Caller.stop_cleared => s.world.ready_running = 0 ∧ s.world.thread ≠ Thread.absent
  | Caller.stop_joining => s.world.ready_running = 0 ∧ s.world.thread ≠ Thread.absent

/-! ### Lemmas on the classifier -/

theorem strncmp_eq_zero_iff (n : Nat) : ∀ (s p : List Nat), n ≤ p.length →
    (∀ c ∈ p.take n, c ≠ 0) → (strncmp s p n = 0 ↔ s.take n = p.take n) := by
  induction n with
  | zero => intro s p _ _; simp [strncmp]
  | succ k ih =>
    intro s p hp hnz
    cases p with
    | nil => simp at hp
    | cons c p =>
      have hc : c ≠ 0 := hnz c (by simp)
      have hp2 : k ≤ p.length := by simpa using hp
      have hnz2 : ∀ d ∈ p.take k, d ≠ 0 := fun d hd => hnz d (by simp [hd])
      cases s with
      | nil =>
        simp only [strncmp, List.headD_nil, List.headD_cons, List.take_nil, List.take_succ_cons]
        have : (0 : Nat) ≠ c := fun h => hc h.symm
        simp [this]
        omega
      | cons a s =>
        simp only [strncmp, List.headD_cons, List.tail_cons, List.take_succ_cons]
        by_cases hac : a = c
        · subst hac
          simp [hc, ih s p hp2 hnz2]
        · simp [hac]
          omega

theorem is_ready_iff (req : List Nat) :
    is_ready req = true ↔ req.take 10 = bytes "GET /ready" := by
  have h1 := strncmp_eq_zero_iff 11 req (cstr "GET /ready ") (by decide) (by decide)
  have h2 := strncmp_eq_zero_iff 10 req (cstr "GET /ready\r") (by decide) (by decide)
  have h3 := strncmp_eq_zero_iff 10 req (cstr "GET /ready\n") (by decide) (by decide)
  have e1 : (cstr "GET /ready ").take 11 = bytes "GET /ready" ++ [32] := by decide
  have e2 : (cstr "GET /ready\r").take 10 = bytes "GET /ready" := by decide
  have e3 : (cstr "GET /ready\n").take 10 = bytes "GET /ready" := by decide
  rw [e1] at h1
  rw [e2] at h2
  rw [e3] at h3
  unfold is_ready
  simp only [decide_eq_true_eq, h1, h2, h3, or_self]
  constructor
  · rintro (h | h)
    · have := congrArg (List.take 10) h
      rw [List.take_take] at this
      simpa using this
    · exact h
  · intro h
    exact Or.inr h

theorem req_after_recv_eq (req0 data : List Nat) (n : Int) (hn : 0 < n)
    (hlen : (data.length : Int) = n) (hmax : n ≤ 1023) (hreq0 : req0.length = 1024) :
    req_after_recv req0 n data = data ++ 0 :: req0.drop (data.length + 1) := by
  unfold req_after_recv
  have hk : n.toNat = data.length := by omega
  rw [hk, List.set_append_right _ _ (le_refl _)]
  have hlt : data.length < req0.length := by omega
  rw [Nat.sub_self, List.drop_eq_getElem_cons hlt]
  rfl

theorem take_ten_iff (data rest : List Nat) :
    (data ++ 0 :: rest).take 10 = bytes "GET /ready" ↔
      10 ≤ data.length ∧ data.take 10 = bytes "GET /ready" := by
  constructor
  · intro h
    by_cases hl : 10 ≤ data.length
    · refine ⟨hl, ?_⟩
      rw [List.take_append_of_le_length hl] at h
      exact h
    · exfalso
      have hmem : (0 : Nat) ∈ (data ++ 0 :: rest).take 10 := by
        rw [List.take_append_eq_append_take]
        have : 10 - data.length = (10 - data.length - 1) + 1 := by omega
        rw [this, List.take_succ_cons]
        simp
      rw [h] at hmem
      revert hmem
      decide
  · rintro ⟨hl, h⟩
    rw [List.take_append_of_le_length hl]
    exact h

/-! ### Lemmas on the response synthesis -/

theorem snprintf_fits (buf fmt : List Nat) (args : List FmtArg) (size : Nat)
    (h : (expandFormat fmt args).length < size) :
    (snprintf buf size fmt args).2 = ((expandFormat fmt args).length : Int) ∧
      (snprintf buf size fmt args).1.take (expandFormat fmt args).length =
        expandFormat fmt args := by
  have hs : size ≠ 0 := by omega
  have hle : (expandFormat fmt args).length ≤ size - 1 := by omega
  simp only [snprintf, hs, if_false, true_and]
  rw [List.take_of_length_le hle, List.append_assoc, List.take_append_of_le_length (le_refl _),
    List.take_length]

theorem snprintf_length (buf fmt : List Nat) (args : List FmtArg) (size : Nat)
    (h : size ≤ buf.length) : (snprintf buf size fmt args).1.length = buf.length := by
  unfold snprintf
  by_cases hs : size = 0
  · simp [hs]
  · simp only [hs, if_false, List.length_append, List.length_take, List.length_drop,
      List.length_cons, List.length_nil]
    omega

theorem expand_ok :
    expandFormat ok_format [FmtArg.int (strlen ok_body), FmtArg.str ok_body] = response200 15 := by
  decide

theorem expand_notfound :
    expandFormat notfound_format [FmtArg.int (strlen notfound_body), FmtArg.str notfound_body] =
      response404 9 := by
  decide

theorem handle_client_ready (req0 resp0 : List Nat) (n : Int) (data : List Nat) (hn : 0 < n)
    (hr : is_ready (req_after_recv req0 n data) = true) :
    ∃ resp rlen, handle_client req0 resp0 n data = some (resp, rlen) ∧
      rlen = (response200 15).length ∧ resp.take rlen = response200 15 ∧
      (256 ≤ resp0.length → resp.length = resp0.length) := by
  have hf := snprintf_fits resp0 ok_format [FmtArg.int (strlen ok_body), FmtArg.str ok_body] 256
    (by rw [expand_ok]; decide)
  rw [expand_ok] at hf
  have hpos : (0 : Int) < ((response200 15).length : Int) := by decide
  refine ⟨(snprintf resp0 256 ok_format [FmtArg.int (strlen ok_body), FmtArg.str ok_body]).1,
    (response200 15).length, ?_, rfl, hf.2, ?_⟩
  · simp only [handle_client, not_le.mpr hn, if_false, hr, if_true, hf.1, gt_iff_lt, hpos]
    rfl
  · intro h
    exact snprintf_length _ _ _ _ h

theorem handle_client_notfound (req0 resp0 : List Nat) (n : Int) (data : List Nat) (hn : 0 < n)
    (hr : is_ready (req_after_recv req0 n data) = false) :
    ∃ resp rlen, handle_client req0 resp0 n data = some (resp, rlen) ∧
      rlen = (response404 9).length ∧ resp.take rlen = response404 9 ∧
      (256 ≤ resp0.length → resp.length = resp0.length) := by
  have hf := snprintf_fits resp0 notfound_format
    [FmtArg.int (strlen notfound_body), FmtArg.str notfound_body] 256
    (by rw [expand_notfound]; decide)
  rw [expand_notfound] at hf
  have hpos : (0 : Int) < ((response404 9).length : Int) := by decide
  refine ⟨(snprintf resp0 256 notfound_format
      [FmtArg.int (strlen notfound_body), FmtArg.str notfound_body]).1,
    (response404 9).length, ?_, rfl, hf.2, ?_⟩
  · simp only [handle_client, not_le.mpr hn, if_false, hr, hf.1, gt_iff_lt, hpos, if_true]
    rfl
  · intro h
    exact snprintf_length _ _ _ _ h

theorem handed_ready (req0 resp0 : List Nat) (n : Int) (data : List Nat) (hn : 0 < n)
    (hr : is_ready (req_after_recv req0 n data) = true) :
    handed (handle_client req0 resp0 n data) = some (response200 15) := by
  obtain ⟨resp, rlen, h, _, ht, _⟩ := handle_client_ready req0 resp0 n data hn hr
  simp [handed, h, ht]

theorem handed_notfound (req0 resp0 : List Nat) (n : Int) (data : List Nat) (hn : 0 < n)
    (hr : is_ready (req_after_recv req0 n data) = false) :
    handed (handle_client req0 resp0 n data) = some (response404 9) := by
  obtain ⟨resp, rlen, h, _, ht, _⟩ := handle_client_notfound req0 resp0 n data hn hr
  simp [handed, h, ht]

theorem is_ready_received (req0 data : List Nat) (n : Int) (hn : 0 < n)
    (hlen : (data.length : Int) = n) (hmax : n ≤ 1023) (hreq0 : req0.length = 1024) :
    is_ready (req_after_recv req0 n data) = true ↔
      10 ≤ data.length ∧ data.take 10 = bytes "GET /ready" := by
  rw [is_ready_iff, req_after_recv_eq req0 data n hn hlen hmax hreq0, take_ten_iff]

/-! ### Lemmas on `write_all` -/

theorem sent_cons (c : SendCall) (cs : List SendCall) : sent (c :: cs) = c.ret.toNat + sent cs := by
  simp [sent]

theorem accepted_cons (c : SendCall) (cs : List SendCall) :
    accepted (c :: cs) = c.offered.take c.ret.toNat ++ accepted cs := by
  simp [accepted]

/-- What the loop does from any iteration on: `k` sends were made before, `b`
is the current offset and `len` the number of bytes still unsent. -/
theorem write_all_loop (send : Nat → List Nat → Int) (mem : List Nat)
    (hsend : ∀ k off, send k off ≤ (off.length : Int)) :
    ∀ fuel k b len, len < fuel → b + len ≤ mem.length → len < 2 ^ 64 →
      ∃ calls, write_all send mem fuel k b len = some calls ∧
        sent calls ≤ len ∧
        accepted calls = ((mem.drop b).take len).take (sent calls) ∧
        (∀ pre c post, calls = pre ++ c :: post →
          c.offered = ((mem.drop b).take len).drop (sent pre) ∧ sent pre < len ∧
            c.ret = send (k + pre.length) c.offered ∧ (c.ret ≤ 0 → post = [])) ∧
        ((∀ c ∈ calls, 0 < c.ret) → sent calls = len) ∧
        (len = 0 → calls = []) := by
  intro fuel
  induction fuel with
  | zero => intro k b len h; omega
  | succ fuel ih =>
    intro k b len hfuel hmem hsz
    by_cases hl : len = 0
    · subst hl
      refine ⟨[], by simp [write_all], by simp [sent], by simp [accepted], ?_, ?_, ?_⟩
      · intro pre c post h
        simp at h
      · intro _; simp [sent]
      · intro _; rfl
    · have hB : ((mem.drop b).take len).length = len := by
        simp only [List.length_take, List.length_drop]; omega
      by_cases hn : send k ((mem.drop b).take len) ≤ 0
      · refine ⟨[⟨(mem.drop b).take len, send k ((mem.drop b).take len)⟩], ?_, ?_, ?_, ?_, ?_, ?_⟩
        · simp [write_all, hl, hn]
        · simp [sent]; omega
        · have : (send k ((mem.drop b).take len)).toNat = 0 := by omega
          simp [accepted, sent, this]
        · intro pre c post h
          rcases List.cons_eq_append_iff.mp h with ⟨hp, hc⟩ | ⟨a, _, hc⟩
          · subst hp
            simp only [List.cons.injEq] at hc
            obtain ⟨hc, hpost⟩ := hc
            subst hc
            refine ⟨by simp [sent], by simp [sent]; omega, by simp, fun _ => hpost⟩
          · simp at hc
        · intro h
          have := h _ (List.mem_singleton.mpr rfl)
          simp only at this
          omega
        · intro h; exact absurd h hl
      · have hle := hsend k ((mem.drop b).take len)
        rw [hB] at hle
        have hm1 : 1 ≤ (send k ((mem.drop b).take len)).toNat := by omega
        have hm2 : (send k ((mem.drop b).take len)).toNat ≤ len := by omega
        have hlen' : (len + 2 ^ 64 - (send k ((mem.drop b).take len)).toNat) % 2 ^ 64 =
            len - (send k ((mem.drop b).take len)).toNat := by
          have : len + 2 ^ 64 - (send k ((mem.drop b).take len)).toNat =
              (len - (send k ((mem.drop b).take len)).toNat) + 2 ^ 64 := by omega
          rw [this, Nat.add_mod_right, Nat.mod_eq_of_lt (by omega)]
        generalize hmdef : (send k ((mem.drop b).take len)).toNat = m at hm1 hm2 hlen'
        obtain ⟨rest, hrun, hsent, hacc, hdec, hall, _⟩ :=
          ih (k + 1) (b + m) (len - m) (by omega) (by omega) (by omega)
        have hB' : (mem.drop (b + m)).take (len - m) = ((mem.drop b).take len).drop m := by
          rw [List.drop_take, List.drop_drop]
        rw [hB'] at hacc hdec
        refine ⟨⟨(mem.drop b).take len, send k ((mem.drop b).take len)⟩ :: rest, ?_, ?_, ?_, ?_, ?_, ?_⟩
        · simp only [write_all, hl, if_false, hn, hmdef, hlen', hrun, Option.map_some']
        · rw [sent_cons]; simp only [hmdef]; omega
        · rw [accepted_cons, sent_cons]
          simp only [hmdef]
          rw [hacc, List.take_add]
        · intro pre c post h
          rcases List.cons_eq_append_iff.mp h with ⟨hp, hc⟩ | ⟨pre', hp, hc⟩
          · subst hp
            simp only [List.cons.injEq] at hc
            obtain ⟨hc, _⟩ := hc
            subst hc
            refine ⟨by simp [sent], by simp [sent]; omega, by simp, fun h0 => absurd h0 hn⟩
          · subst hp
            obtain ⟨h1, h2, h3, h4⟩ := hdec pre' c post hc
            refine ⟨?_, ?_, ?_, h4⟩
            · rw [h1, sent_cons, List.drop_drop]; simp only [hmdef]
            · rw [sent_cons]; simp only [hmdef]; omega
            · rw [h3]
              simp only [List.length_cons]
              congr 1
              omega
        · intro h
          have hr := hall (fun c hc => h c (List.mem_cons_of_mem _ hc))
          rw [sent_cons]; simp only [hmdef]; omega
        · intro h; exact absurd h hl

/-! ### Lemmas on start and stop -/

theorem closeCalls_append (es fs : List Effect) :
    closeCalls (es ++ fs) = closeCalls es ++ closeCalls fs := by
  induction es with
  | nil => rfl
  | cons e es ih => cases e <;> simp [closeCalls, ih]

theorem bindCalls_append (es fs : List Effect) :
    bindCalls (es ++ fs) = bindCalls es ++ bindCalls fs := by
  induction es with
  | nil => rfl
  | cons e es ih => cases e <;> simp [bindCalls, ih]

theorem select_bind_addr_calls (env : StartEnv) (a : sockaddr_in) :
    closeCalls (select_bind_addr env a).2 = [] ∧ bindCalls (select_bind_addr env a).2 = [] := by
  unfold select_bind_addr
  split <;> (try split_ifs) <;> simp [closeCalls, bindCalls]

theorem select_bind_addr_none_iff (env : StartEnv) (a : sockaddr_in) :
    (select_bind_addr env a).1 = none ↔
      ∃ s, env.getenv = some s ∧ s.headD 0 ≠ 0 ∧ (env.inet_pton s).1 ≠ 1 := by
  unfold select_bind_addr
  split
  · rename_i s hs
    split_ifs with h1 h2
    · exact ⟨fun _ => ⟨s, hs, h1, h2⟩, fun _ => rfl⟩
    · refine ⟨fun h => by simp at h, ?_⟩
      rintro ⟨t, ht, _, h3⟩
      rw [hs] at ht
      cases ht
      exact absurd h3 h2
    · refine ⟨fun h => by simp at h, ?_⟩
      rintro ⟨t, ht, h3, _⟩
      rw [hs] at ht
      cases ht
      exact absurd h3 h1
  · rename_i hs
    refine ⟨fun h => by simp at h, ?_⟩
    rintro ⟨t, ht, _, _⟩
    rw [hs] at ht
    cases ht

theorem select_bind_addr_default (env : StartEnv) (a : sockaddr_in)
    (h : env.getenv = none ∨ env.getenv = some []) :
    (select_bind_addr env a).1 = some { a with sin_addr := INADDR_ANY } := by
  unfold select_bind_addr
  rcases h with h | h <;> simp [h]

theorem select_bind_addr_override (env : StartEnv) (a : sockaddr_in) (s : List Nat) (ip : Nat)
    (hs : env.getenv = some s) (hne : s.headD 0 ≠ 0) (hp : env.inet_pton s = (1, ip)) :
    (select_bind_addr env a).1 = some { a with sin_addr := ip } := by
  unfold select_bind_addr
  simp only [hs, hne, hp, if_true, ne_eq, not_false_eq_true, OfNat.one_ne_ofNat, not_true_eq_false,
    if_false]

/-- The shape of every return path of `ready_server_start` after the socket
was opened, by the address selected. -/
theorem ready_server_start_paths (env : StartEnv) (w : World) (p port : Nat)
    (hs : 0 ≤ env.socket) :
    let r := ready_server_start env w (some p) port
    let sel := select_bind_addr env { sin_family := AF_INET, sin_port := port, sin_addr := 0 }
    (sel.1 = none → r.ret = -1 ∧ bindCalls r.effects = [] ∧ closeCalls r.effects = [env.socket] ∧
      r.world = { w with mem := Function.update w.mem p { fd := -1, port := port } }) ∧
    (∀ addr, sel.1 = some addr →
      bindCalls r.effects = [(env.socket, addr)] ∧
      ((env.bind < 0 ∨ env.listen < 0) → r.ret = -1 ∧ closeCalls r.effects = [env.socket] ∧
        r.world = { w with mem := Function.update w.mem p { fd := -1, port := port } }) ∧
      (0 ≤ env.bind → 0 ≤ env.listen → env.pthread_create ≠ 0 →
        r.ret = -1 ∧ closeCalls r.effects = [env.socket] ∧
        r.world.ready_running = 0 ∧ r.world.ready_srv = none ∧ r.world.thread = w.thread ∧
        (r.world.mem p).fd = -1) ∧
      (0 ≤ env.bind → 0 ≤ env.listen → env.pthread_create = 0 →
        r.ret = 0 ∧ closeCalls r.effects = [] ∧
        r.world.ready_running = 1 ∧ r.world.ready_srv = some p ∧
        r.world.thread = Thread.created ∧ (r.world.mem p).fd = env.socket)) := by
  intro r sel
  have hc := select_bind_addr_calls env { sin_family := AF_INET, sin_port := port, sin_addr := 0 }
  have hr : r = ready_server_start env w (some p) port := rfl
  have hsel : sel = select_bind_addr env { sin_family := AF_INET, sin_port := port, sin_addr := 0 } := rfl
  clear_value r sel
  rw [← hsel] at hc
  simp only [ready_server_start, not_lt.mpr hs, if_false] at hr
  rw [← hsel] at hr
  rcases sel with ⟨_ | addr, e2⟩
  · simp only at hr hc
    subst hr
    refine ⟨fun _ => ?_, fun addr h => by simp at h⟩
    simp [closeCalls_append, bindCalls_append, hc.1, hc.2, closeCalls, bindCalls]
  · simp only at hr hc
    refine ⟨fun h => by simp at h, fun addr2 h => ?_⟩
    simp only [Option.some.injEq] at h
    subst h
    refine ⟨?_, ?_, ?_, ?_⟩
    · subst hr
      split_ifs <;>
        simp [closeCalls_append, bindCalls_append, hc.1, hc.2, closeCalls, bindCalls]
    · intro hbl
      subst hr
      by_cases hb : env.bind < 0
      · simp [hb, closeCalls_append, hc.1, closeCalls]
      · have hl : env.listen < 0 := by tauto
        simp [hb, hl, closeCalls_append, hc.1, closeCalls]
    · intro hb hl hp
      subst hr
      simp [not_lt.mpr hb, not_lt.mpr hl, hp, closeCalls_append, hc.1, closeCalls]
    · intro hb hl hp
      subst hr
      simp [not_lt.mpr hb, not_lt.mpr hl, hp, closeCalls_append, hc.1, closeCalls]

theorem ready_server_start_ret_zero (env : StartEnv) (w : World) (srv : Option Nat) (port : Nat)
    (h : (ready_server_start env w srv port).ret = 0) : 0 ≤ env.socket ∧ srv ≠ none := by
  cases srv with
  | none => simp [ready_server_start] at h
  | some p =>
    refine ⟨?_, by simp⟩
    by_contra hs
    simp [ready_server_start, not_le.mp hs] at h

theorem headD_ne_zero (s : List Nat) (hne : s ≠ []) (hz : 0 ∉ s) : s.headD 0 ≠ 0 := by
  cases s with
  | nil => exact absurd rfl hne
  | cons c cs =>
    intro h
    apply hz
    simp only [List.headD_cons] at h
    simp [h]

/-! ### Lemmas on the statement-level start and stop -/

theorem start_split (env : StartEnv) (w : World) (srv : Option Nat) (port : Nat) :
    ready_server_start env w srv port =
      (match start_prepare env w srv port with
        | Sum.inl r => r
        | Sum.inr q => start_spawn env.pthread_create q) := by
  cases srv with
  | none => rfl
  | some p =>
    unfold ready_server_start start_prepare
    by_cases hs : env.socket < 0
    · simp only [hs, if_true]
    · simp only [hs, if_false]
      rcases select_bind_addr env { sin_family := AF_INET, sin_port := port, sin_addr := 0 }
        with ⟨_ | addr, e2⟩
      · rfl
      · by_cases hb : env.bind < 0
        · simp only [hb, if_true]
        · by_cases hl : env.listen < 0
          · simp only [hb, hl, if_true, if_false]
          · by_cases hp : env.pthread_create = 0
            · simp [hb, hl, hp, start_spawn]
            · simp [hb, hl, hp, start_spawn]

theorem stop_split (w : World) (h : w.ready_running ≠ 0) :
    ready_server_stop w =
      ((stop_join (stop_close (stop_clear w)).1).1,
        (stop_close (stop_clear w)).2 ++ (stop_join (stop_close (stop_clear w)).1).2) := by
  unfold ready_server_stop stop_join stop_close stop_clear
  simp only [h, if_false]

theorem stop_close_thread (w : World) : (stop_close w).1.thread = w.thread := by
  unfold stop_close
  split <;> (try split_ifs) <;> rfl

/-- A whole call of `ready_server_stop`, once the thread has returned, is the
three transitions of stop in a row. -/
theorem run_stop (w : World) (h : w.ready_running ≠ 0) (ht : w.thread = Thread.returned) :
    Sys.run ⟨w, Caller.idle⟩ [Event.stop, Event.close, Event.join] =
      some ⟨(ready_server_stop w).1, Caller.idle⟩ := by
  have h2 : (stop_close (stop_clear w)).1.thread = Thread.returned := by
    rw [stop_close_thread]; exact ht
  simp only [Sys.run, Sys.next, h, if_false, h2, if_true, stop_split w h]

/-- A whole call of `ready_server_start` is the transition up to
`pthread_create`, followed, unless start returned early, by the transition
from `pthread_create` on. -/
theorem run_start (env : StartEnv) (w : World) (srv : Option Nat) (port : Nat)
    (h0 : w.ready_running = 0) :
    Sys.run ⟨w, Caller.idle⟩ [Event.start env srv port] =
        some ⟨(ready_server_start env w srv port).world, Caller.idle⟩ ∨
      Sys.run ⟨w, Caller.idle⟩ [Event.start env srv port, Event.spawn env.pthread_create] =
        some ⟨(ready_server_start env w srv port).world, Caller.idle⟩ := by
  rw [start_split]
  cases hp : start_prepare env w srv port with
  | inl r =>
    left
    simp only [Sys.run, Sys.next, h0, if_true, hp]
  | inr q =>
    right
    simp only [Sys.run, Sys.next, h0, if_true, hp]
    unfold start_spawn
    split_ifs <;> rfl

theorem start_prepare_inl (env : StartEnv) (w : World) (srv : Option Nat) (port : Nat)
    (r : StartResult) (h : start_prepare env w srv port = Sum.inl r) :
    r.world.ready_running = w.ready_running ∧ r.world.thread = w.thread := by
  cases srv with
  | none =>
    simp only [start_prepare, Sum.inl.injEq] at h
    subst h
    exact ⟨rfl, rfl⟩
  | some p =>
    unfold start_prepare at h
    by_cases hs : env.socket < 0
    · simp only [hs, if_true, Sum.inl.injEq] at h
      subst h
      exact ⟨rfl, rfl⟩
    · simp only [hs, if_false] at h
      generalize select_bind_addr env
        { sin_family := AF_INET, sin_port := port, sin_addr := 0 } = sel at h
      rcases sel with ⟨_ | addr, e2⟩
      · simp only [Sum.inl.injEq] at h
        subst h
        exact ⟨rfl, rfl⟩
      · by_cases hb : env.bind < 0
        · simp only [hb, if_true, Sum.inl.injEq] at h
          subst h
          exact ⟨rfl, rfl⟩
        · by_cases hl : env.listen < 0
          · simp only [hb, hl, if_true, if_false, Sum.inl.injEq] at h
            subst h
            exact ⟨rfl, rfl⟩
          · simp [hb, hl] at h

theorem start_prepare_inr (env : StartEnv) (w : World) (srv : Option Nat) (port : Nat)
    (q : StartPending) (h : start_prepare env w srv port = Sum.inr q) :
    q.world.ready_running = 1 ∧ q.world.thread = w.thread := by
  cases srv with
  | none => simp [start_prepare] at h
  | some p =>
    unfold start_prepare at h
    by_cases hs : env.socket < 0
    · simp [hs] at h
    · simp only [hs, if_false] at h
      generalize select_bind_addr env
        { sin_family := AF_INET, sin_port := port, sin_addr := 0 } = sel at h
      rcases sel with ⟨_ | addr, e2⟩
      · simp at h
      · by_cases hb : env.bind < 0
        · simp [hb] at h
        · by_cases hl : env.listen < 0
          · simp [hb, hl] at h
          · simp only [hb, hl, if_false, Sum.inr.injEq] at h
            subst h
            exact ⟨rfl, rfl⟩

theorem ready_main_step_flag (w : World) (a : AcceptResult) :
    (ready_main_step w a).1.ready_running = w.ready_running ∧
      ((ready_main_step w a).1.thread = Thread.absent ↔ w.thread = Thread.absent) := by
  unfold ready_main_step
  split
  · rename_i h; simp [h]
  · rename_i h; simp [h]
  · rename_i h; simp [h]
  · rename_i cfd h; simp [h]
  · rename_i h
    split_ifs <;> simp [h]

theorem flagTracksThread_next (s t : Sys) (e : Event) (hs : FlagTracksThread s)
    (h : s.next e = some t) : FlagTracksThread t := by
  obtain ⟨w, c⟩ := s
  cases e with
  | start env srv port =>
    cases c with
    | idle =>
      simp only [Sys.next] at h
      by_cases h0 : w.ready_running = 0
      · simp only [h0, if_true] at h
        have hth : w.thread = Thread.absent := by
          rcases hs with hs | hs
          · exact hs.2
          · rw [h0] at hs; exact absurd hs.1 (by decide)
        cases hp : start_prepare env w srv port with
        | inl r =>
          rw [hp] at h
          simp only [Option.some.injEq] at h
          subst h
          obtain ⟨h1, h2⟩ := start_prepare_inl env w srv port r hp
          left
          exact ⟨h1.trans h0, h2.trans hth⟩
        | inr q =>
          rw [hp] at h
          simp only [Option.some.injEq] at h
          subst h
          obtain ⟨h1, h2⟩ := start_prepare_inr env w srv port q hp
          exact ⟨h1, h2.trans hth⟩
      · simp [h0] at h
    | spawning p fd => simp [Sys.next] at h
    | stop_cleared => simp [Sys.next] at h
    | stop_joining => simp [Sys.next] at h
  | spawn rc =>
    cases c with
    | spawning p fd =>
      simp only [Sys.next, Option.some.injEq] at h
      subst h
      obtain ⟨h1, h2⟩ := hs
      by_cases hrc : rc = 0
      · right
        simp only [start_spawn, hrc, ne_eq, not_true_eq_false, if_false]
        exact ⟨h1, by simp⟩
      · left
        simp only [start_spawn, hrc, ne_eq, not_false_eq_true, if_true]
        exact ⟨trivial, h2⟩
    | idle => simp [Sys.next] at h
    | stop_cleared => simp [Sys.next] at h
    | stop_joining => simp [Sys.next] at h
  | stop =>
    cases c with
    | idle =>
      simp only [Sys.next] at h
      by_cases h0 : w.ready_running = 0
      · simp only [h0, if_true, Option.some.injEq] at h
        subst h
        exact hs
      · simp only [h0, if_false, Option.some.injEq] at h
        subst h
        rcases hs with hs | hs
        · exact absurd hs.1 h0
        · exact ⟨rfl, hs.2⟩
    | spawning p fd => simp [Sys.next] at h
    | stop_cleared => simp [Sys.next] at h
    | stop_joining => simp [Sys.next] at h
  | close =>
    cases c with
    | stop_cleared =>
      simp only [Sys.next, Option.some.injEq] at h
      subst h
      obtain ⟨h1, h2⟩ := hs
      have hc : (stop_close w).1.ready_running = w.ready_running ∧
          (stop_close w).1.thread = w.thread := by
        unfold stop_close
        split <;> (try split_ifs) <;> exact ⟨rfl, rfl⟩
      exact ⟨hc.1.trans h1, by rw [hc.2]; exact h2⟩
    | idle => simp [Sys.next] at h
    | spawning p fd => simp [Sys.next] at h
    | stop_joining => simp [Sys.next] at h
  | join =>
    cases c with
    | stop_joining =>
      simp only [Sys.next] at h
      by_cases hr : w.thread = Thread.returned
      · simp only [hr, if_true, Option.some.injEq] at h
        subst h
        left
        exact ⟨hs.1, rfl⟩
      · simp [hr] at h
    | idle => simp [Sys.next] at h
    | spawning p fd => simp [Sys.next] at h
    | stop_cleared => simp [Sys.next] at h
  | loop a =>
    simp only [Sys.next, Option.some.injEq] at h
    subst h
    obtain ⟨hf, hth⟩ := ready_main_step_flag w a
    cases c with
    | idle =>
      rcases hs with hs | hs
      · left; exact ⟨hf.trans hs.1, hth.mpr hs.2⟩
      · right; exact ⟨hf.trans hs.1, fun h => hs.2 (hth.mp h)⟩
    | spawning p fd => exact ⟨hf.trans hs.1, hth.mpr hs.2⟩
    | stop_cleared => exact ⟨hf.trans hs.1, fun h => hs.2 (hth.mp h)⟩
    | stop_joining => exact ⟨hf.trans hs.1, fun h => hs.2 (hth.mp h)⟩

theorem flagTracksThread_of_reachable (s : Sys) (h : Reachable s) : FlagTracksThread s := by
  induction h with
  | init mem => left; exact ⟨rfl, rfl⟩
  | next e _ hn ih => exact flagTracksThread_next _ _ e ih hn

theorem reachable_run (es : List Event) : ∀ (s t : Sys), Reachable s → s.run es = some t →
    Reachable t := by
  induction es with
  | nil =>
    intro s t hs h
    simp only [Sys.run, Option.some.injEq] at h
    subst h
    exact hs
  | cons e es ih =>
    intro s t hs h
    simp only [Sys.run] at h
    cases hn : s.next e with
    | none => simp [hn] at h
    | some u =>
      rw [hn] at h
      exact ih u t (Reachable.next e hs hn) h

/-! ## The request classifier and the response (C1, C2, C3, C10) -/

/-- C1, evaluated at the failing input: the 14 received bytes `GET /ready?x=1`
begin with none of the three literal prefixes `GET /ready `, `GET /ready\r`,
`GET /ready\n`, and still `is_ready` is set and the 200 response is handed to
the writer, whatever the stack buffers contained. -/
theorem ready_query_string_answered_200 (req0 resp0 : List Nat) (hreq0 : req0.length = 1024) :
    (bytes "GET /ready?x=1").take 11 ≠ bytes "GET /ready " ∧
    (bytes "GET /ready?x=1").take 11 ≠ bytes "GET /ready\r" ∧
    (bytes "GET /ready?x=1").take 11 ≠ bytes "GET /ready\n" ∧
    is_ready (req_after_recv req0 14 (bytes "GET /ready?x=1")) = true ∧
    handed (handle_client req0 resp0 14 (bytes "GET /ready?x=1")) = some (response200 15) := by
  have hr : is_ready (req_after_recv req0 14 (bytes "GET /ready?x=1")) = true :=
    (is_ready_received req0 _ 14 (by decide) (by decide) (by decide) hreq0).mpr
      ⟨by decide, by decide⟩
  exact ⟨by decide, by decide, by decide, hr, handed_ready req0 resp0 14 _ (by decide) hr⟩

theorem ready_query_string_answered_200_witness :
    is_ready (req_after_recv (List.replicate 1024 0) 14 (bytes "GET /ready?x=1")) = true ∧
    handed (handle_client (List.replicate 1024 0) (List.replicate 256 0) 14
      (bytes "GET /ready?x=1")) = some (response200 15) :=
  (ready_query_string_answered_200 (List.replicate 1024 0) (List.replicate 256 0)
    (List.length_replicate 1024 0)).2.2.2

/-- C2: for every received request (`recv` returned `n > 0` bytes `data`) the
handler makes exactly one call of the writer, on the 256-byte buffer `resp` with
a length `rlen < 256`, and the `rlen` bytes handed over are the complete 200
response when the request is classified ready and the complete 404 response
otherwise, the length field being the decimal byte length of the body after the
blank line. The request `GET /ready HTTP/1.1\r\n\r\n` gets the former and
`GET /other HTTP/1.1\r\n\r\n` the latter. -/
theorem handle_client_response_exact (req0 resp0 : List Nat) (n : Int) (data : List Nat)
    (hn : 0 < n) (hmax : n ≤ 1023) (hlen : (data.length : Int) = n)
    (hreq0 : req0.length = 1024) (hresp0 : resp0.length = 256) :
    ∃ resp rlen, handle_client req0 resp0 n data = some (resp, rlen) ∧
      resp.length = 256 ∧ rlen < 256 ∧
      resp.take rlen =
        (if is_ready (req_after_recv req0 n data) = true
          then response200 (bytes okBodyText).length
          else response404 (bytes "Not Found").length) ∧
      (data = bytes "GET /ready HTTP/1.1\r\n\r\n" →
        resp.take rlen = response200 (bytes okBodyText).length) ∧
      (data = bytes "GET /other HTTP/1.1\r\n\r\n" →
        resp.take rlen = response404 (bytes "Not Found").length) := by
  have hiff := is_ready_received req0 data n hn hlen hmax hreq0
  have e200 : response200 (bytes okBodyText).length = response200 15 := by decide
  have e404 : response404 (bytes "Not Found").length = response404 9 := by decide
  rw [e200, e404]
  cases hr : is_ready (req_after_recv req0 n data) with
  | true =>
    obtain ⟨resp, rlen, h1, h2, h3, h4⟩ := handle_client_ready req0 resp0 n data hn hr
    refine ⟨resp, rlen, h1, ?_, ?_, ?_, fun _ => h3, ?_⟩
    · rw [h4 (by omega), hresp0]
    · rw [h2]; decide
    · simpa using h3
    · intro hd
      exfalso
      have := (hiff.mp hr).2
      rw [hd] at this
      revert this
      decide
  | false =>
    obtain ⟨resp, rlen, h1, h2, h3, h4⟩ := handle_client_notfound req0 resp0 n data hn hr
    refine ⟨resp, rlen, h1, ?_, ?_, ?_, ?_, fun _ => h3⟩
    · rw [h4 (by omega), hresp0]
    · rw [h2]; decide
    · simpa using h3
    · intro hd
      exfalso
      have hf : ¬ is_ready (req_after_recv req0 n data) = true := by simp [hr]
      apply hf
      rw [hiff, hd]
      exact ⟨by decide, by decide⟩

theorem handle_client_response_exact_witness :
    ∃ resp rlen, handle_client (List.replicate 1024 0) (List.replicate 256 0) 23
        (bytes "GET /ready HTTP/1.1\r\n\r\n") = some (resp, rlen) ∧
      resp.length = 256 ∧ rlen < 256 ∧
      resp.take rlen = response200 (bytes okBodyText).length := by
  obtain ⟨resp, rlen, h1, h2, h3, _, h5, _⟩ :=
    handle_client_response_exact (List.replicate 1024 0) (List.replicate 256 0) 23
      (bytes "GET /ready HTTP/1.1\r\n\r\n") (by decide) (by decide) (by decide)
      (List.length_replicate 1024 0) (List.length_replicate 256 0)
  exact ⟨resp, rlen, h1, h2, h3, h5 rfl⟩

set_option maxRecDepth 100000 in
/-- C3 fails as stated: the response handed to the writer for the ready-check
`GET /ready HTTP/1.1\r\n\r\n` is not the 200 response with `Content-Length: 16`
and contains no header line `Content-Length: 16`. -/
theorem content_length_is_not_16 :
    handed (handle_client (List.replicate 1024 0) (List.replicate 256 0) 23
      (bytes "GET /ready HTTP/1.1\r\n\r\n")) = some (response200 15) ∧
    response200 15 ≠ response200 16 ∧
    ¬ (bytes "\r\nContent-Length: 16\r\n" <:+: response200 15) := by
  refine ⟨by decide, by decide, by decide⟩

/-- C3 as amended: the 200 response that `handle_client` emits for a
ready-check carries the header line `Content-Length: 15`, the byte length of
its body `{"status":"UP"}`, and the 404 response carries `Content-Length: 9`
with the body `Not Found`. -/
theorem content_length_headers (req0 resp0 : List Nat) (n : Int) (data : List Nat)
    (hn : 0 < n) :
    (is_ready (req_after_recv req0 n data) = true →
      handed (handle_client req0 resp0 n data) = some (response200 15)) ∧
    (is_ready (req_after_recv req0 n data) = false →
      handed (handle_client req0 resp0 n data) = some (response404 9)) ∧
    bytes "\r\nContent-Length: 15\r\n" <:+: response200 15 ∧
    bytes ("\r\n\r\n" ++ okBodyText) <:+ response200 15 ∧
    (bytes okBodyText).length = 15 ∧
    bytes "\r\nContent-Length: 9\r\n" <:+: response404 9 ∧
    bytes "\r\n\r\nNot Found" <:+ response404 9 ∧
    (bytes "Not Found").length = 9 :=
  ⟨handed_ready req0 resp0 n data hn, handed_notfound req0 resp0 n data hn,
    by decide, by decide, by decide, by decide, by decide, by decide⟩

theorem content_length_headers_witness :
    handed (handle_client (List.replicate 1024 0) (List.replicate 256 0) 23
      (bytes "GET /other HTTP/1.1\r\n\r\n")) = some (response404 9) :=
  (content_length_headers (List.replicate 1024 0) (List.replicate 256 0) 23
    (bytes "GET /other HTTP/1.1\r\n\r\n") (by decide)).2.1 (by decide)

/-- C10: a received byte string (1 to 1023 bytes) is answered with the 200
response exactly when it is at least 10 bytes long and its first 10 bytes are
`GET /ready`, whatever follows, and with the 404 response otherwise. So the bare
`GET /ready`, `GET /readyz` and `GET /ready?x=1` get 200, and an input shorter
than 10 bytes or with a NUL among its first 10 bytes gets 404. -/
theorem ready_iff_first_ten_bytes (req0 resp0 : List Nat) (n : Int) (data : List Nat)
    (hn : 0 < n) (hmax : n ≤ 1023) (hlen : (data.length : Int) = n)
    (hreq0 : req0.length = 1024) :
    (handed (handle_client req0 resp0 n data) = some (response200 15) ↔
      10 ≤ data.length ∧ data.take 10 = bytes "GET /ready") ∧
    (¬ (10 ≤ data.length ∧ data.take 10 = bytes "GET /ready") →
      handed (handle_client req0 resp0 n data) = some (response404 9)) ∧
    (data.length < 10 ∨ 0 ∈ data.take 10 →
      handed (handle_client req0 resp0 n data) = some (response404 9)) ∧
    (data = bytes "GET /ready" ∨ data = bytes "GET /readyz" ∨ data = bytes "GET /ready?x=1" →
      handed (handle_client req0 resp0 n data) = some (response200 15)) := by
  have hiff := is_ready_received req0 data n hn hlen hmax hreq0
  have hne : response404 9 ≠ response200 15 := by decide
  have h404 : ¬ (10 ≤ data.length ∧ data.take 10 = bytes "GET /ready") →
      handed (handle_client req0 resp0 n data) = some (response404 9) := by
    intro h
    apply handed_notfound req0 resp0 n data hn
    rw [← hiff] at h
    simpa using h
  have h200 : 10 ≤ data.length ∧ data.take 10 = bytes "GET /ready" →
      handed (handle_client req0 resp0 n data) = some (response200 15) :=
    fun h => handed_ready req0 resp0 n data hn (hiff.mpr h)
  refine ⟨⟨?_, h200⟩, h404, ?_, ?_⟩
  · intro h
    by_contra hc
    rw [h404 hc] at h
    exact hne (Option.some.inj h)
  · intro h
    apply h404
    rintro ⟨h1, h2⟩
    rcases h with h | h
    · omega
    · rw [h2] at h
      revert h
      decide
  · intro h
    apply h200
    rcases h with h | h | h <;> subst h <;> exact ⟨by decide, by decide⟩

theorem ready_iff_first_ten_bytes_witness :
    handed (handle_client (List.replicate 1024 0) (List.replicate 256 0) 11
      (bytes "GET /readyz")) = some (response200 15) :=
  (ready_iff_first_ten_bytes (List.replicate 1024 0) (List.replicate 256 0) 11
    (bytes "GET /readyz") (by decide) (by decide) (by decide)
    (List.length_replicate 1024 0)).2.2.2
    (Or.inr (Or.inl rfl))

/-! ## The send loop (C9) -/

/-- C9: `write_all` on the `len` bytes at offset `b` of `mem`, where every call
of `send` returns at most the number of bytes it was offered. With enough fuel
the loop terminates; each call is offered exactly the not-yet-sent suffix of the
buffer, and is made only while bytes are unsent; after a call that returned a
value `<= 0` no further call is made; the bytes accepted, in order, are a
leading part of the buffer, and all of it when no call returned `<= 0`; no call
at all is made when `len = 0`. -/
theorem write_all_drains (send : Nat → List Nat → Int) (mem : List Nat) (b len fuel : Nat)
    (hsend : ∀ k off, send k off ≤ (off.length : Int))
    (hmem : b + len ≤ mem.length) (hsz : len < 2 ^ 64) (hfuel : len < fuel) :
    ∃ calls, write_all send mem fuel 0 b len = some calls ∧
      (∀ pre c post, calls = pre ++ c :: post →
        c.offered = ((mem.drop b).take len).drop (sent pre) ∧ sent pre < len ∧
          c.ret = send pre.length c.offered ∧ (c.ret ≤ 0 → post = [])) ∧
      accepted calls = ((mem.drop b).take len).take (sent calls) ∧
      accepted calls <+: (mem.drop b).take len ∧
      ((∀ c ∈ calls, 0 < c.ret) → accepted calls = (mem.drop b).take len) ∧
      (len = 0 → calls = []) := by
  obtain ⟨calls, h1, h2, h3, h4, h5, h6⟩ :=
    write_all_loop send mem hsend fuel 0 b len hfuel hmem hsz
  refine ⟨calls, h1, ?_, h3, ?_, ?_, h6⟩
  · intro pre c post h
    have := h4 pre c post h
    simpa using this
  · rw [h3]
    exact List.take_prefix _ _
  · intro h
    rw [h3, h5 h]
    apply List.take_of_length_le
    simp only [List.length_take, List.length_drop]
    omega

theorem write_all_drains_witness :
    ∃ calls, write_all (fun _ off => min 2 off.length) [71, 69, 84, 32, 47] 6 0 0 5 = some calls ∧
      accepted calls = [71, 69, 84, 32, 47] := by
  obtain ⟨calls, h1, h2, _, _, h5, _⟩ :=
    write_all_drains (fun _ off => min 2 off.length) [71, 69, 84, 32, 47] 0 5 6
      (fun _ off => by simp) (by decide) (by decide) (by decide)
  refine ⟨calls, h1, ?_⟩
  have hc : calls = [⟨[71, 69, 84, 32, 47], 2⟩, ⟨[84, 32, 47], 2⟩, ⟨[47], 1⟩] := by
    have : write_all (fun _ off => min 2 off.length) [71, 69, 84, 32, 47] 6 0 0 5 =
        some [⟨[71, 69, 84, 32, 47], 2⟩, ⟨[84, 32, 47], 2⟩, ⟨[47], 1⟩] := by decide
    rw [this] at h1
    exact (Option.some.inj h1).symm
  subst hc
  exact h5 (by decide)

/-! ## Start and stop (C4, C5, C6, C7) -/

/-- C4: `ready_server_stop` is idempotent. In a state whose running flag is
clear (never started, or already stopped) it changes nothing and issues no
call; after any stop the flag is clear, so a second stop changes nothing and
issues nothing, and the effects of stop followed by stop are those of one stop:
at most one `close`, of the registered listener, and at most one join. -/
theorem ready_server_stop_idempotent :
    (∀ w : World, w.ready_running = 0 → ready_server_stop w = (w, [])) ∧
    (∀ mem, ready_server_stop (World.initial mem) = (World.initial mem, [])) ∧
    (∀ w : World, (ready_server_stop w).1.ready_running = 0) ∧
    (∀ w : World,
      ready_server_stop (ready_server_stop w).1 = ((ready_server_stop w).1, [])) ∧
    (∀ w : World, (ready_server_stop w).2 ++ (ready_server_stop (ready_server_stop w).1).2 =
      (ready_server_stop w).2) ∧
    (∀ w : World, (closeCalls (ready_server_stop w).2).length ≤ 1 ∧
      joinCalls (ready_server_stop w).2 ≤ 1 ∧
      (∀ fd ∈ closeCalls (ready_server_stop w).2,
        ∃ p, w.ready_srv = some p ∧ (w.mem p).fd = fd ∧ 0 ≤ fd ∧
          ((ready_server_stop w).1.mem p).fd = -1)) := by
  have h0 : ∀ w : World, w.ready_running = 0 → ready_server_stop w = (w, []) := by
    intro w h
    simp [ready_server_stop, h]
  have h1 : ∀ w : World, (ready_server_stop w).1.ready_running = 0 := by
    intro w
    by_cases h : w.ready_running = 0
    · rw [h0 w h]; exact h
    · unfold ready_server_stop
      simp only [h, if_false]
      split <;> (try split_ifs) <;> rfl
  refine ⟨h0, fun mem => h0 _ rfl, h1, fun w => h0 _ (h1 w), ?_, ?_⟩
  · intro w
    rw [h0 _ (h1 w)]
    simp
  · intro w
    by_cases h : w.ready_running = 0
    · rw [h0 w h]
      simp [closeCalls, joinCalls]
    · unfold ready_server_stop
      simp only [h, if_false]
      cases hs : w.ready_srv with
      | none => simp [closeCalls, joinCalls]
      | some p =>
        by_cases hfd : (w.mem p).fd ≥ 0
        · simp [hfd, closeCalls, joinCalls]
        · simp [hfd, closeCalls, joinCalls]

theorem ready_server_stop_idempotent_witness :
    ready_server_stop (ready_server_stop (ready_server_start plainEnv freshWorld (some 0) 8080).world).1
      = ((ready_server_stop (ready_server_start plainEnv freshWorld (some 0) 8080).world).1, []) ∧
    ready_server_stop freshWorld = (freshWorld, []) :=
  ⟨ready_server_stop_idempotent.2.2.2.1 _, ready_server_stop_idempotent.1 freshWorld rfl⟩

/-- C5: `ready_server_start` on a handle, from a state with no active instance.
It returns 0 exactly when the socket, the override parse, bind, listen and the
thread creation all succeed, and a negative value otherwise. On every failure
the handle holds the sentinel descriptor -1, the running flag is clear, no
handle is registered and no thread exists; the descriptor opened by `socket`
was closed exactly once, and nothing was closed when `socket` itself failed. -/
theorem ready_server_start_fails_cleanly (env : StartEnv) (w : World) (p port : Nat)
    (hidle : w.idle) :
    ((ready_server_start env w (some p) port).ret = 0 ↔ env.allSucceed) ∧
    ((ready_server_start env w (some p) port).ret ≠ 0 →
      (ready_server_start env w (some p) port).ret < 0) ∧
    ((ready_server_start env w (some p) port).ret ≠ 0 →
      closeCalls (ready_server_start env w (some p) port).effects =
        (if 0 ≤ env.socket then [env.socket] else []) ∧
      ((ready_server_start env w (some p) port).world.mem p).fd = -1 ∧
      (ready_server_start env w (some p) port).world.ready_running = 0 ∧
      (ready_server_start env w (some p) port).world.ready_srv = none ∧
      (ready_server_start env w (some p) port).world.thread = Thread.absent) := by
  obtain ⟨hrun, hsrv, hth⟩ := hidle
  by_cases hs : env.socket < 0
  · have hns : ¬ (0 ≤ env.socket) := not_le.mpr hs
    simp [ready_server_start, hs, hns, StartEnv.allSucceed, closeCalls, hrun, hsrv, hth]
  · have hs' : 0 ≤ env.socket := not_lt.mp hs
    have hp := ready_server_start_paths env w p port hs'
    have hni := select_bind_addr_none_iff env
      { sin_family := AF_INET, sin_port := port, sin_addr := 0 }
    simp only at hp
    obtain ⟨hnone, hsome⟩ := hp
    have hov : (match env.getenv with
        | some s => s.headD 0 = 0 ∨ (env.inet_pton s).1 = 1
        | none => True) ↔
        ¬ ∃ s, env.getenv = some s ∧ s.headD 0 ≠ 0 ∧ (env.inet_pton s).1 ≠ 1 := by
      cases hg : env.getenv with
      | none => simp
      | some s =>
        simp only [Option.some.injEq, ne_eq, exists_eq_left', not_and, not_not]
        tauto
    unfold StartEnv.allSucceed
    rw [hov, ← hni]
    simp only [hs', if_true, true_and]
    cases hsel : (select_bind_addr env
      { sin_family := AF_INET, sin_port := port, sin_addr := 0 }).1 with
    | none =>
      obtain ⟨hret, _, hcl, hwd⟩ := hnone hsel
      rw [hret, hcl, hwd]
      simp [hrun, hsrv, hth]
    | some addr =>
      obtain ⟨_, hfail, hspawn, hok⟩ := hsome addr hsel
      by_cases hb : env.bind < 0
      · obtain ⟨hret, hcl, hwd⟩ := hfail (Or.inl hb)
        rw [hret, hcl, hwd]
        simp [hrun, hsrv, hth, hb]
      · by_cases hl : env.listen < 0
        · obtain ⟨hret, hcl, hwd⟩ := hfail (Or.inr hl)
          rw [hret, hcl, hwd]
          simp [hrun, hsrv, hth, hl]
        · by_cases hpc : env.pthread_create = 0
          · obtain ⟨hret, _⟩ := hok (not_lt.mp hb) (not_lt.mp hl) hpc
            rw [hret]
            simp [not_lt.mp hb, not_lt.mp hl, hpc]
          · obtain ⟨hret, hcl, h1, h2, h3, h4⟩ := hspawn (not_lt.mp hb) (not_lt.mp hl) hpc
            rw [hret, hcl, h1, h2, h3, h4]
            simp [hpc, hth]

theorem ready_server_start_fails_cleanly_witness :
    (ready_server_start { plainEnv with listen := -1 } freshWorld (some 0) 8080).ret < 0 ∧
    closeCalls (ready_server_start { plainEnv with listen := -1 } freshWorld (some 0) 8080).effects
      = [3] := by
  have h := ready_server_start_fails_cleanly { plainEnv with listen := -1 } freshWorld 0 8080
    ⟨rfl, rfl, rfl⟩
  have hne : (ready_server_start { plainEnv with listen := -1 } freshWorld (some 0) 8080).ret ≠ 0 := by
    decide
  exact ⟨h.2.1 hne, (h.2.2 hne).1⟩

/-- C6: bind-address selection of `ready_server_start`, for every port, once
the socket is open. With `WRK2_READY_BIND` absent or empty the one call of
`bind` is on the wildcard address 0.0.0.0 and that port; with a non-empty value
that `inet_pton` parses it is on exactly the parsed address and that port; with
a non-empty value that does not parse, `bind` is never called and start fails. -/
theorem bind_address_selection (env : StartEnv) (w : World) (p port : Nat)
    (hs : 0 ≤ env.socket) :
    (env.getenv = none ∨ env.getenv = some [] →
      bindCalls (ready_server_start env w (some p) port).effects =
        [(env.socket, { sin_family := AF_INET, sin_port := port, sin_addr := INADDR_ANY })]) ∧
    (∀ s ip, env.getenv = some s → s ≠ [] → 0 ∉ s → env.inet_pton s = (1, ip) →
      bindCalls (ready_server_start env w (some p) port).effects =
        [(env.socket, { sin_family := AF_INET, sin_port := port, sin_addr := ip })]) ∧
    (∀ s, env.getenv = some s → s ≠ [] → 0 ∉ s → (env.inet_pton s).1 ≠ 1 →
      bindCalls (ready_server_start env w (some p) port).effects = [] ∧
      (ready_server_start env w (some p) port).ret < 0) := by
  have hp := ready_server_start_paths env w p port hs
  simp only at hp
  obtain ⟨hnone, hsome⟩ := hp
  refine ⟨fun h => ?_, fun s ip hg hne hz hip => ?_, fun s hg hne hz hip => ?_⟩
  · exact (hsome _ (select_bind_addr_default env _ h)).1
  · exact (hsome _ (select_bind_addr_override env _ s ip hg (headD_ne_zero s hne hz) hip)).1
  · have hsel := (select_bind_addr_none_iff env
      { sin_family := AF_INET, sin_port := port, sin_addr := 0 }).mpr
      ⟨s, hg, headD_ne_zero s hne hz, hip⟩
    obtain ⟨hret, hb, _, _⟩ := hnone hsel
    rw [hret]
    exact ⟨hb, by decide⟩

theorem bind_address_selection_witness :
    bindCalls (ready_server_start plainEnv freshWorld (some 0) 8080).effects =
      [(3, { sin_family := AF_INET, sin_port := 8080, sin_addr := INADDR_ANY })] :=
  (bind_address_selection plainEnv freshWorld 0 8080 (by decide)).1 (Or.inl rfl)

/-- C7 fails as stated: with `WRK2_READY_BIND` not set, a start on port 8080
succeeds and its one call of `bind` is on 0.0.0.0:8080, not on 127.0.0.1:8080. -/
theorem default_bind_is_not_loopback :
    plainEnv.getenv = none ∧
    (ready_server_start plainEnv freshWorld (some 0) 8080).ret = 0 ∧
    bindCalls (ready_server_start plainEnv freshWorld (some 0) 8080).effects =
      [(3, { sin_family := AF_INET, sin_port := 8080, sin_addr := INADDR_ANY })] ∧
    bindCalls (ready_server_start plainEnv freshWorld (some 0) 8080).effects ≠
      [(3, { sin_family := AF_INET, sin_port := 8080, sin_addr := INADDR_LOOPBACK })] := by
  decide

/-- C7 as amended: for every port, a successful start with no bind override
configured (`WRK2_READY_BIND` absent or empty) binds the listening socket to
the wildcard address 0.0.0.0 and that port, which is not the loopback address. -/
theorem default_bind_is_wildcard (env : StartEnv) (w : World) (srv : Option Nat) (port : Nat)
    (hov : env.getenv = none ∨ env.getenv = some [])
    (hok : (ready_server_start env w srv port).ret = 0) :
    bindCalls (ready_server_start env w srv port).effects =
      [(env.socket, { sin_family := AF_INET, sin_port := port, sin_addr := INADDR_ANY })] ∧
    INADDR_ANY ≠ INADDR_LOOPBACK := by
  obtain ⟨hs, hsrv⟩ := ready_server_start_ret_zero env w srv port hok
  cases srv with
  | none => exact absurd rfl hsrv
  | some p =>
    have hp := ready_server_start_paths env w p port hs
    simp only at hp
    exact ⟨(hp.2 _ (select_bind_addr_default env _ hov)).1, by decide⟩

theorem default_bind_is_wildcard_witness :
    bindCalls (ready_server_start plainEnv freshWorld (some 7) 9090).effects =
      [(3, { sin_family := AF_INET, sin_port := 9090, sin_addr := INADDR_ANY })] :=
  (default_bind_is_wildcard plainEnv freshWorld (some 7) 9090 (Or.inl rfl) (by decide)).1

/-! ## The running flag and the accept loop (C8) -/

/-- C8 fails as stated, in both directions. After a successful start, the
thread entering its loop and `accept` failing with an error other than EINTR,
the state is reachable, the loop has exited, and the running flag is still 1.
After a successful start, the thread entering its loop and stop storing
`ready_running = 0`, the state is reachable, the loop is executing, and the
running flag is 0. -/
theorem running_flag_outlives_loop :
    Reachable ⟨acceptFailedWorld, Caller.idle⟩ ∧
    acceptFailedWorld.thread = Thread.returned ∧
    acceptFailedWorld.thread.active = false ∧
    acceptFailedWorld.ready_running = 1 ∧
    ¬ (acceptFailedWorld.ready_running ≠ 0 ↔ acceptFailedWorld.thread.active = true) ∧
    Reachable ⟨stopClearedWorld, Caller.stop_cleared⟩ ∧
    stopClearedWorld.thread = Thread.looping ∧
    stopClearedWorld.thread.active = true ∧
    stopClearedWorld.ready_running = 0 ∧
    ¬ (stopClearedWorld.ready_running ≠ 0 ↔ stopClearedWorld.thread.active = true) := by
  refine ⟨?_, by decide, by decide, by decide, by decide, ?_, by decide, by decide, by decide,
    by decide⟩
  · exact reachable_run
      [Event.start plainEnv (some 0) 8080, Event.spawn 0, Event.loop ⟨-1, 0⟩, Event.loop ⟨-1, 24⟩]
      _ _ (Reachable.init _) rfl
  · exact reachable_run
      [Event.start plainEnv (some 0) 8080, Event.spawn 0, Event.loop ⟨-1, 0⟩, Event.stop]
      _ _ (Reachable.init _) rfl

/-- C8 as amended: in every state reachable through start (called while
no instance is active), stop and the steps of the accept loop, start and stop
running statement by statement beside the loop. If the running flag is set, the
accept loop is executing or about to start (the thread is created, or start has
set the flag and is about to create it), or the loop has exited and the thread
was not joined yet. If the loop is executing or about to start, the flag is set
or a stop call is under way, past its store `ready_running = 0`. Outside a call
of start or stop the flag is set exactly when a thread was created and not yet
joined. -/
theorem running_flag_invariant (s : Sys) (h : Reachable s) :
    (s.world.ready_running ≠ 0 →
      s.world.thread.active = true ∨ s.caller.inStart = true ∨
        s.world.thread = Thread.returned) ∧
    (s.world.thread.active = true → s.world.ready_running = 1 ∨ s.caller.inStop = true) ∧
    (s.caller = Caller.idle →
      (s.world.ready_running ≠ 0 ↔ s.world.thread ≠ Thread.absent)) := by
  have hinv := flagTracksThread_of_reachable s h
  obtain ⟨w, c⟩ := s
  have hact : ∀ t : Thread, t ≠ Thread.absent → t.active = true ∨ t = Thread.returned := by
    intro t ht
    cases t <;> simp [Thread.active] at ht ⊢
  cases c with
  | idle =>
    rcases hinv with ⟨h0, ht⟩ | ⟨h1, ht⟩
    · refine ⟨fun hf => absurd h0 hf, fun ha => ?_, fun _ => ?_⟩
      · simp only at ht ha
        rw [ht] at ha
        exact absurd ha (by decide)
      · simp only at h0 ht
        simp [h0, ht]
    · refine ⟨fun _ => ?_, fun _ => Or.inl h1, fun _ => ?_⟩
      · rcases hact _ ht with h | h
        · exact Or.inl h
        · exact Or.inr (Or.inr h)
      · simp only at h1 ht
        simp [h1, ht]
  | spawning p fd =>
    obtain ⟨h1, ht⟩ := hinv
    exact ⟨fun _ => Or.inr (Or.inl rfl), fun _ => Or.inl h1, fun hc => by simp at hc⟩
  | stop_cleared =>
    obtain ⟨h0, ht⟩ := hinv
    exact ⟨fun hf => absurd h0 hf, fun _ => Or.inr rfl, fun hc => by simp at hc⟩
  | stop_joining =>
    obtain ⟨h0, ht⟩ := hinv
    exact ⟨fun hf => absurd h0 hf, fun _ => Or.inr rfl, fun hc => by simp at hc⟩

theorem running_flag_invariant_witness :
    (acceptFailedWorld.ready_running ≠ 0 ↔ acceptFailedWorld.thread ≠ Thread.absent) ∧
    (acceptFailedWorld.ready_running ≠ 0 →
      acceptFailedWorld.thread.active = true ∨ Caller.inStart Caller.idle = true ∨
        acceptFailedWorld.thread = Thread.returned) :=
  have h := running_flag_invariant ⟨acceptFailedWorld, Caller.idle⟩
    (reachable_run
      [Event.start plainEnv (some 0) 8080, Event.spawn 0, Event.loop ⟨-1, 0⟩, Event.loop ⟨-1, 24⟩]
      _ _ (Reachable.init _) rfl)
  ⟨h.2.2 rfl, h.1⟩

end ReadyServer
